import Mathlib

/-!
# cust_term.c : a pty-backed terminal relay

A shallow embedding of the Unix branch of `src/cust_term.c`.  The program talks to the
outside world only through libc and ncurses calls, so the embedding threads an explicit
`State` (the C variables plus the chronological list of calls made so far) through
functions that mirror `setup_unix_terminal`, `handle_resize`, `init_colors` and `main`.
Everything the environment decides (what `forkpty`, `has_colors`, `select`, `read` and
`write` answer, which signals arrive) is an explicit input.
-/

namespace CustTerm

/-! ## Data model -/

/-- One `char` of the I/O buffer, seen as an unsigned byte value. -/
abbrev Byte := Fin 256

/-- The four fields of `struct winsize`, in declaration order. -/
structure winsize where
  ws_row : Nat
  ws_col : Nat
  ws_xpixel : Nat
  ws_ypixel : Nat
deriving DecidableEq, Repr

/-- Modelled from the spec: the `stdlib.h` macro `EXIT_FAILURE` is not defined in the
source; the spec asks for a non-zero exit status on setup failure, and the value on
POSIX C libraries is 1. -/
def EXIT_FAILURE : Int := 1

/-- Modelled from the spec: the number of the window-resize notification of the platform
(`signal.h` is not part of the source; 28 is the Linux value of `SIGWINCH`). -/
def SIGWINCH : Int := 28

/-- Modelled from the spec: descriptor of the controlling-terminal input (`unistd.h`). -/
def STDIN_FILENO : Int := 0

/-- Modelled from the spec: descriptor of the controlling-terminal output (`unistd.h`). -/
def STDOUT_FILENO : Int := 1

/-- Modelled from the spec: ncurses colour number used as foreground of pair 1. -/
def COLOR_GREEN : Int := 2

/-- Modelled from the spec: ncurses colour number used as background of pair 1. -/
def COLOR_BLACK : Int := 0

/-- The value of `sizeof(buffer)` for `char buffer[256]`. -/
def BUFFER_SIZE : Nat := 256

/-- Calls and buffer stores performed by the program, with the values they carry.
`ioctl_TIOCSWINSZ` is the call that would change a pty window size; it is part of the
vocabulary of the environment although the source never issues it. -/
inductive Act where
  | forkpty (ws : winsize) (ret : Int)
  | execlp (file : String)
  | perror (s : String)
  | fprintf_stderr (s : String)
  | exit (status : Int)
  | ret (status : Int)
  | signal (signo : Int)
  | ioctl_TIOCGWINSZ (fd : Int) (out : winsize)
  | ioctl_TIOCSWINSZ (fd : Int) (ws : winsize)
  | initscr
  | raw
  | keypad
  | noecho
  | has_colors (ret : Bool)
  | endwin
  | start_color
  | init_pair (pair fg bg : Int)
  | attron (pair : Int)
  | attroff (pair : Int)
  | select (nfds : Int) (ret : Int)
  | read (fd : Int) (count : Nat) (ret : Int)
  | store (idx : Int)
  | printw (str : List Byte)
  | refresh
  | write (fd : Int) (bytes : List Byte) (ret : Int)
deriving DecidableEq, Repr

/-- The C variables of the Unix branch (`master_fd` is the global, the others are the
locals of `main`) together with the calls made so far, oldest first. -/
structure State where
  master_fd : Int
  child_pid : Int
  buffer : List Byte
  nbytes : Int
  trace : List Act
deriving DecidableEq, Repr

/-- What the kernel answers to one `read`: failure with an `errno`, or the bytes it has
ready for the descriptor (none ready means end of file). -/
inductive ReadResult where
  | error (errno : Nat)
  | data (avail : List Byte)
deriving DecidableEq, Repr

/-- What the kernel answers to one `write`: failure with an `errno`, or the number of
bytes the descriptor can take right now. -/
inductive WriteResult where
  | error (errno : Nat)
  | accept (room : Nat)
deriving DecidableEq, Repr

/-- Everything the environment decides for one pass through the loop body: the return
value of `select`, which of the two descriptors are left in `rfds`, and the answers the
two `read`s and the `write` get if the body issues them. -/
structure Wake where
  selectRet : Int
  masterSet : Bool
  stdinSet : Bool
  masterRead : ReadResult
  stdinRead : ReadResult
  writeRes : WriteResult
deriving DecidableEq, Repr

/-- What can happen while the loop runs: `select` wakes up, a `SIGWINCH` arrives while
the real terminal has size `actual`, or the process is terminated from outside by a
signal that is not caught. -/
inductive Event where
  | wake (w : Wake)
  | winch (actual : winsize)
  | kill
deriving DecidableEq, Repr

/-- The environment of one process: the value `forkpty` returns in it and the master
descriptor it stores on success, whether `execlp` comes back (it only returns on
failure), the answer of `has_colors`, and the indeterminate initial contents of the
uninitialised `buffer`. -/
structure Env where
  forkptyRet : Int
  forkptyMaster : Int
  execlpFails : Bool
  hasColors : Bool
  stack : Fin 256 → Byte

/-- How a run of the process stands after the given events. -/
inductive Outcome where
  | exited (status : Int) (s : State)
  | execed (s : State)
  | killed (s : State)
  | running (s : State)
  | fault (s : State)
deriving DecidableEq, Repr

/-- The state carried by an outcome. -/
def Outcome.state : Outcome → State
  | .exited _ s => s
  | .execed s => s
  | .killed s => s
  | .running s => s
  | .fault s => s

/-! ## System-call models -/

/-- Record one call at the end of the trace. -/
def emit (s : State) (a : Act) : State :=
  { s with trace := s.trace ++ [a] }

/-- Model of `read(fd, buf, count)`: on failure returns -1 and leaves the buffer alone;
otherwise copies the first `count` ready bytes to the start of the buffer and returns
how many.  `none` when the copy would run past the end of the buffer. -/
def sys_read (r : ReadResult) (count : Nat) (buf : List Byte) : Option (Int × List Byte) :=
  match r with
  | .error _ => some (-1, buf)
  | .data avail =>
    let got := avail.take count
    if got.length ≤ buf.length then some ((got.length : Int), got ++ buf.drop got.length)
    else none

/-- Return value of `write(fd, buf, n)`: -1 on failure, else the number of bytes taken. -/
def sys_write (r : WriteResult) (n : Nat) : Int :=
  match r with
  | .error _ => -1
  | .accept room => ((min room n : Nat) : Int)

/-- The assignment `buf[i] = v`; `none` when `i` is outside the array. -/
def store (buf : List Byte) (i : Int) (v : Byte) : Option (List Byte) :=
  if 0 ≤ i ∧ i.toNat < buf.length then some (buf.set i.toNat v) else none

/-- The C string that starts at `buf`: the bytes before the first zero byte. -/
def cstr (buf : List Byte) : List Byte :=
  buf.takeWhile (fun b => b != 0)

/-! ## The program -/

/-- The function `setup_unix_terminal`: `forkpty` with the fixed window size, then the
three-way branch on its result. -/
def setup_unix_terminal (env : Env) (s : State) : Except Outcome State :=
  let ws : winsize := ⟨24, 80, 0, 0⟩
  let s1 : State :=
    { s with
      child_pid := env.forkptyRet
      master_fd := if env.forkptyRet = -1 ∨ env.forkptyRet = 0 then s.master_fd
                   else env.forkptyMaster
      trace := s.trace ++ [Act.forkpty ws env.forkptyRet] }
  if s1.child_pid = -1 then
    let s2 := emit s1 (Act.perror "forkpty")
    .error (.exited EXIT_FAILURE (emit s2 (Act.exit EXIT_FAILURE)))
  else if s1.child_pid = 0 then
    let s2 := emit s1 (Act.execlp "/bin/bash")
    if env.execlpFails then
      let s3 := emit s2 (Act.perror "execlp")
      .error (.exited EXIT_FAILURE (emit s3 (Act.exit EXIT_FAILURE)))
    else .error (.execed s2)
  else .ok s1

/-- The function `handle_resize`: on `SIGWINCH` the current size is queried into a local
`ws`; nothing is done with it. -/
def handle_resize (signo : Int) (actual : winsize) (s : State) : State :=
  if signo = SIGWINCH then
    let ws : winsize := actual
    emit s (Act.ioctl_TIOCGWINSZ STDOUT_FILENO ws)
  else s

/-- The function `init_colors`: without colour support, `endwin`, a message on `stderr`
and `exit(1)`; otherwise colour pair 1 is defined. -/
def init_colors (env : Env) (s : State) : Except Outcome State :=
  let s1 := emit s (Act.has_colors env.hasColors)
  if env.hasColors = false then
    let s2 := emit s1 Act.endwin
    let s3 := emit s2 (Act.fprintf_stderr "Your terminal does not support color\n")
    .error (.exited 1 (emit s3 (Act.exit 1)))
  else
    let s2 := emit s1 Act.start_color
    .ok (emit s2 (Act.init_pair 1 COLOR_GREEN COLOR_BLACK))

/-- Lines 146-151: the `read` from `master_fd` and, for a positive result, the
terminator store, `printw("%s", buffer)` and `refresh`. -/
def read_master (w : Wake) (s : State) : Option State :=
  match sys_read w.masterRead (BUFFER_SIZE - 1) s.buffer with
  | none => none
  | some (n, buf) =>
    let s1 : State :=
      { s with nbytes := n, buffer := buf,
               trace := s.trace ++ [Act.read s.master_fd (BUFFER_SIZE - 1) n] }
    if s1.nbytes > 0 then
      match store s1.buffer s1.nbytes 0 with
      | none => none
      | some buf1 =>
        let s2 : State := { s1 with buffer := buf1, trace := s1.trace ++ [Act.store s1.nbytes] }
        let s3 := emit s2 (Act.printw (cstr s2.buffer))
        some (emit s3 Act.refresh)
    else some s1

/-- Lines 155-159: the `read` from standard input and, for a positive result, the
terminator store and the `write` of `nbytes` bytes to `master_fd`, whose return value is
dropped. -/
def read_stdin (w : Wake) (s : State) : Option State :=
  match sys_read w.stdinRead (BUFFER_SIZE - 1) s.buffer with
  | none => none
  | some (n, buf) =>
    let s1 : State :=
      { s with nbytes := n, buffer := buf,
               trace := s.trace ++ [Act.read STDIN_FILENO (BUFFER_SIZE - 1) n] }
    if s1.nbytes > 0 then
      match store s1.buffer s1.nbytes 0 with
      | none => none
      | some buf1 =>
        let s2 : State := { s1 with buffer := buf1, trace := s1.trace ++ [Act.store s1.nbytes] }
        let offered := s2.buffer.take s2.nbytes.toNat
        some (emit s2 (Act.write s2.master_fd offered (sys_write w.writeRes s2.nbytes.toNat)))
    else some s1

/-- One pass through the body of `while (1)` (lines 140-161); `none` when a buffer access
falls outside the array. -/
def loop_body (w : Wake) (s : State) : Option State :=
  let nfds : Int := (if s.master_fd > STDIN_FILENO then s.master_fd else STDIN_FILENO) + 1
  let s1 := emit s (Act.select nfds w.selectRet)
  if w.selectRet > 0 then
    match (if w.masterSet then read_master w s1 else some s1) with
    | none => none
    | some s2 => if w.stdinSet then read_stdin w s2 else some s2
  else some s1

/-- The controlling expression of `while (1)`. -/
def loop_cond : Bool := (1 : Int) != 0

/-- Lines 165-172, the statements after the loop: `attroff`, `endwin`, `return 0`. -/
def after_loop (s : State) : Outcome :=
  let s1 := emit s (Act.attroff 1)
  let s2 := emit s1 Act.endwin
  .exited 0 (emit s2 (Act.ret 0))

/-- The loop of `main` driven by the events of the environment.  With no event left the
process is blocked in `select`, still inside the loop.  An arriving `SIGWINCH` runs the
installed handler; an uncaught terminating signal ends the process on the spot. -/
def run_loop : List Event → State → Outcome
  | [], s => if loop_cond then .running s else after_loop s
  | ev :: rest, s =>
    if loop_cond then
      match ev with
      | .kill => .killed s
      | .winch actual => run_loop rest (handle_resize SIGWINCH actual s)
      | .wake w =>
        match loop_body w s with
        | none => .fault s
        | some s1 => run_loop rest s1
    else after_loop s

/-- The 256 indeterminate bytes found in `char buffer[256]` when `main` starts. -/
def stackBuffer (env : Env) : List Byte :=
  List.ofFn env.stack

/-- The state in which `main` starts: the global `master_fd` is zero-initialised, the
`int` locals are written before they are read, `buffer` holds whatever the stack held. -/
def initial (env : Env) : State :=
  { master_fd := 0, child_pid := 0, buffer := stackBuffer env, nbytes := 0, trace := [] }

/-- The Unix branch of `main`. -/
def main (env : Env) (evs : List Event) : Outcome :=
  match setup_unix_terminal env (initial env) with
  | .error o => o
  | .ok s1 =>
    let s2 := emit s1 (Act.signal SIGWINCH)
    let s3 := emit s2 Act.initscr
    let s4 := emit s3 Act.raw
    let s5 := emit s4 Act.keypad
    let s6 := emit s5 Act.noecho
    match init_colors env s6 with
    | .error o => o
    | .ok s7 => run_loop evs (emit s7 (Act.attron 1))

/-! ## Observations on a trace -/

/-- The bytes handed to the renderer: the strings of the `printw` calls, in order. -/
def rendered (tr : List Act) : List Byte :=
  tr.flatMap fun a => match a with
    | .printw str => str
    | _ => []

/-- The bytes that reached the pty master `fd`: for each `write` on it, the leading part
of the offered bytes that the call reported as taken (nothing when it failed). -/
def ptyReceived (fd : Int) (tr : List Act) : List Byte :=
  tr.flatMap fun a => match a with
    | .write fd1 bytes ret => if fd1 = fd then bytes.take ret.toNat else []
    | _ => []

/-- The diagnostics sent to the error stream, in order. -/
def stderrOut (tr : List Act) : List String :=
  tr.filterMap fun a => match a with
    | .perror s => some s
    | .fprintf_stderr s => some s
    | _ => none

/-- Whether the controlling terminal is in curses/raw mode after the calls of `tr`:
`initscr` and `raw` switch it on, `endwin` restores the saved mode. -/
def rawActive (tr : List Act) : Bool :=
  tr.foldl (fun m a => match a with
    | .initscr => true
    | .raw => true
    | .endwin => false
    | _ => m) false

/-- The window size of the pty behind master descriptor `fd` after the calls of `tr`: set
by a successful `forkpty`, changed only by `ioctl(fd, TIOCSWINSZ, ..)`. -/
def ptyWinsize (fd : Int) (tr : List Act) : Option winsize :=
  tr.foldl (fun cur a => match a with
    | .forkpty ws r => if r = -1 then cur else some ws
    | .ioctl_TIOCSWINSZ fd1 ws => if fd1 = fd then some ws else cur
    | _ => cur) none

/-! ## What the environment offers, read off the events -/

/-- The bytes a `read` of at most 255 bytes returns for the given answer of the kernel. -/
def chunkOf (r : ReadResult) : List Byte :=
  match r with
  | .error _ => []
  | .data avail => avail.take 255

/-- The return value of that `read`. -/
def retOf (r : ReadResult) : Int :=
  match r with
  | .error _ => -1
  | .data avail => ((avail.take 255).length : Int)

/-- The chunk the pty master hands over in one wake-up: non-empty exactly when `select`
reported it readable and the `read` succeeded with data. -/
def masterChunk (w : Wake) : List Byte :=
  if 0 < w.selectRet ∧ w.masterSet = true then chunkOf w.masterRead else []

/-- The keystroke chunk standard input hands over in one wake-up. -/
def stdinChunk (w : Wake) : List Byte :=
  if 0 < w.selectRet ∧ w.stdinSet = true then chunkOf w.stdinRead else []

/-- The non-empty chunks returned by the successive successful reads of the pty master. -/
def masterChunks (evs : List Event) : List (List Byte) :=
  evs.filterMap fun ev => match ev with
    | .wake w => if masterChunk w = [] then none else some (masterChunk w)
    | _ => none

/-- The non-empty chunks returned by the successive successful reads of standard input. -/
def stdinChunks (evs : List Event) : List (List Byte) :=
  evs.filterMap fun ev => match ev with
    | .wake w => if stdinChunk w = [] then none else some (stdinChunk w)
    | _ => none

/-- The part of a keystroke chunk that the single `write` of its wake-up gets accepted. -/
def acceptedOf (w : Wake) : List Byte :=
  (stdinChunk w).take (sys_write w.writeRes (stdinChunk w).length).toNat

/-- The `write` of this wake-up, if one is issued, takes every byte offered. -/
def fullWrite (w : Wake) : Bool :=
  match w.writeRes with
  | .accept room => decide ((stdinChunk w).length ≤ room)
  | .error _ => (stdinChunk w).isEmpty

/-- The events the loop gets to handle: those before the first terminating signal. -/
def live (evs : List Event) : List Event :=
  evs.takeWhile fun ev => ev != Event.kill

/-! ## The calls each part of the loop makes -/

/-- Calls made by lines 146-151 for a given answer to the `read`. -/
def masterActs (fd : Int) (r : ReadResult) : List Act :=
  if chunkOf r = [] then [Act.read fd 255 (retOf r)]
  else [Act.read fd 255 (retOf r), Act.store (retOf r), Act.printw (cstr (chunkOf r)), Act.refresh]

/-- Calls made by lines 155-159 for given answers to the `read` and the `write`. -/
def stdinActs (fd : Int) (r : ReadResult) (wr : WriteResult) : List Act :=
  if chunkOf r = [] then [Act.read STDIN_FILENO 255 (retOf r)]
  else [Act.read STDIN_FILENO 255 (retOf r), Act.store (retOf r),
        Act.write fd (chunkOf r) (sys_write wr (chunkOf r).length)]

/-- Calls made by one pass through the loop body. -/
def bodyActs (fd : Int) (w : Wake) : List Act :=
  Act.select ((if fd > STDIN_FILENO then fd else STDIN_FILENO) + 1) w.selectRet ::
    (if w.selectRet > 0 then
      (if w.masterSet then masterActs fd w.masterRead else []) ++
      (if w.stdinSet then stdinActs fd w.stdinRead w.writeRes else [])
     else [])

/-- Calls made while one event is handled. -/
def eventActs (fd : Int) (ev : Event) : List Act :=
  match ev with
  | .wake w => bodyActs fd w
  | .winch actual => [Act.ioctl_TIOCGWINSZ STDOUT_FILENO actual]
  | .kill => []

/-- Calls made by the loop over a sequence of events. -/
def loopActs (fd : Int) (evs : List Event) : List Act :=
  evs.flatMap (eventActs fd)

/-- Calls made by `main` before the loop when `forkpty` succeeds in the parent and the
terminal has colours. -/
def setupActs (env : Env) : List Act :=
  [Act.forkpty ⟨24, 80, 0, 0⟩ env.forkptyRet, Act.signal SIGWINCH, Act.initscr, Act.raw,
   Act.keypad, Act.noecho, Act.has_colors true, Act.start_color,
   Act.init_pair 1 COLOR_GREEN COLOR_BLACK, Act.attron 1]

/-- The acts a trace-level bound speaks about: every `read` asks for 255 bytes and returns
at most that many, every terminator store lands at an index from 1 to 255. -/
def boundedAct (a : Act) : Bool :=
  match a with
  | .read _ count r => decide (count = 255 ∧ count < BUFFER_SIZE ∧ r ≤ 255)
  | .store idx => decide (0 < idx ∧ idx < 256)
  | _ => true

/-! ## The states the loop passes through -/

/-- The bytes of the buffer after a `read` answered by `r` and the terminator store. -/
def bufferAfter (r : ReadResult) (buf : List Byte) : List Byte :=
  if chunkOf r = [] then buf else chunkOf r ++ 0 :: buf.drop ((chunkOf r).length + 1)

/-- The state after lines 146-151. -/
def afterMaster (w : Wake) (s : State) : State :=
  { s with nbytes := retOf w.masterRead, buffer := bufferAfter w.masterRead s.buffer,
           trace := s.trace ++ masterActs s.master_fd w.masterRead }

/-- The state after lines 155-159. -/
def afterStdin (w : Wake) (s : State) : State :=
  { s with nbytes := retOf w.stdinRead, buffer := bufferAfter w.stdinRead s.buffer,
           trace := s.trace ++ stdinActs s.master_fd w.stdinRead w.writeRes }

/-- The state after one pass through the loop body. -/
def afterBody (w : Wake) (s : State) : State :=
  let s1 := emit s (Act.select ((if s.master_fd > STDIN_FILENO then s.master_fd
    else STDIN_FILENO) + 1) w.selectRet)
  if w.selectRet > 0 then
    let s2 := if w.masterSet then afterMaster w s1 else s1
    if w.stdinSet then afterStdin w s2 else s2
  else s1

/-- The state in which the parent enters the loop. -/
def loopEntry (env : Env) : State :=
  { master_fd := env.forkptyMaster, child_pid := env.forkptyRet, buffer := stackBuffer env,
    nbytes := 0, trace := setupActs env }

/-! ## Classifying and counting calls -/

/-- The kinds of call the loop makes: `select`, `read`, terminator store, `printw`,
`refresh`, `write`, and the size query of the resize handler. -/
def loopAct (a : Act) : Bool :=
  match a with
  | .select _ _ => true
  | .read _ _ _ => true
  | .store _ => true
  | .printw _ => true
  | .refresh => true
  | .write _ _ _ => true
  | .ioctl_TIOCGWINSZ _ _ => true
  | _ => false

/-- The bytes accepted by the pty master over a sequence of events. -/
def acceptedBytes (evs : List Event) : List Byte :=
  evs.flatMap fun ev => match ev with
    | .wake w => acceptedOf w
    | _ => []

/-- The number of `write` calls in a trace. -/
def writeCount (tr : List Act) : Nat :=
  tr.countP fun a => match a with
    | .write _ _ _ => true
    | _ => false

/-! ## Concrete environments -/

/-- A parent process: `forkpty` returns child pid 1234 and master descriptor 3, the
terminal has colours, the stack held zero bytes. -/
def parentEnv : Env :=
  { forkptyRet := 1234, forkptyMaster := 3, execlpFails := false, hasColors := true,
    stack := fun _ => 0 }

/-- A template for wake-ups in which `select` reports one descriptor ready; each event
below says which descriptor it is and what its `read` returns. -/
def idleWake : Wake :=
  { selectRet := 1, masterSet := false, stdinSet := false, masterRead := ReadResult.data [],
    stdinRead := ReadResult.data [], writeRes := WriteResult.accept 0 }

/-- A wake-up in which `select` was interrupted by a signal and returns -1. -/
def interruptedWake : Wake :=
  { idleWake with selectRet := -1 }

/-- The shell writes the three bytes `A`, NUL, `B` and the master read returns them. -/
def nulEvents : List Event :=
  [Event.wake { idleWake with masterSet := true, masterRead := ReadResult.data [65, 0, 66] }]

/-- The user types `ls` and newline while the shell prints `hi`; the pty takes all three
keystroke bytes. -/
def typingWake : Wake :=
  { selectRet := 2, masterSet := true, stdinSet := true,
    masterRead := ReadResult.data [104, 105],
    stdinRead := ReadResult.data [108, 115, 10],
    writeRes := WriteResult.accept 4096 }

/-- The single wake-up `typingWake`. -/
def typingEvents : List Event :=
  [Event.wake typingWake]

/-- The shell has exited: the pty master is reported readable and its `read` returns 0. -/
def eofEvents : List Event :=
  [Event.wake { idleWake with masterSet := true, masterRead := ReadResult.data [] }]

/-- The process is terminated by an uncaught signal right after entering the loop. -/
def killEvents : List Event :=
  [Event.kill]

/-- The real terminal is resized to 40 rows by 120 columns, `SIGWINCH` is delivered, and
the interrupted `select` returns, which starts the next pass through the loop. -/
def resizeEvents : List Event :=
  [Event.winch ⟨40, 120, 0, 0⟩, Event.wake interruptedWake]

/-- Modelled from the spec: the EAGAIN/EWOULDBLOCK class of transient errors (`errno.h`
is not part of the source; both names are 11 on Linux). -/
def transientErrno (errno : Nat) : Bool :=
  errno == 11

/-- The `read` of the pty master fails with `EIO` (5), a non-transient error; at the next
wake-up the `read` of standard input fails with `EIO` too. -/
def eioEvents : List Event :=
  [Event.wake { idleWake with masterSet := true, masterRead := ReadResult.error 5 },
   Event.wake { idleWake with stdinSet := true, stdinRead := ReadResult.error 5 }]

/-- The `read` of the pty master fails with `EAGAIN` (11): nothing to read yet. -/
def eagainWake : Wake :=
  { idleWake with masterSet := true, masterRead := ReadResult.error 11 }

/-- The user types `ab`; the pty master takes one byte only; the loop then makes one more
pass, in which `select` returns with nothing to read. -/
def shortWriteEvents : List Event :=
  [Event.wake { idleWake with stdinSet := true, stdinRead := ReadResult.data [97, 98],
                              writeRes := WriteResult.accept 1 },
   Event.wake interruptedWake]

/-- A terminal without colour support, in the parent process. -/
def monoEnv : Env :=
  { parentEnv with hasColors := false }

/-- A process in which `forkpty` fails. -/
def noPtyEnv : Env :=
  { parentEnv with forkptyRet := -1 }

/-! ## Buffer lemmas -/

theorem chunkOf_length (r : ReadResult) : (chunkOf r).length ≤ 255 := by
  cases r with
  | error e => simp [chunkOf]
  | data avail => simp [chunkOf, List.length_take]

theorem retOf_eq_length (r : ReadResult) (h : chunkOf r ≠ []) :
    retOf r = ((chunkOf r).length : Int) := by
  cases r with
  | error e => simp [chunkOf] at h
  | data avail => simp [retOf, chunkOf]

theorem retOf_nonpos (r : ReadResult) (h : chunkOf r = []) : retOf r ≤ 0 := by
  cases r with
  | error e => simp [retOf]
  | data avail =>
    simp only [chunkOf] at h
    simp [retOf, h]

theorem retOf_le (r : ReadResult) : retOf r ≤ 255 := by
  cases r with
  | error e => simp [retOf]
  | data avail =>
    have := chunkOf_length (ReadResult.data avail)
    simp only [chunkOf] at this
    simp only [retOf]
    exact_mod_cast this

theorem set_append_length (got rest : List Byte) (r v : Byte) :
    (got ++ r :: rest).set got.length v = got ++ v :: rest := by
  induction got with
  | nil => simp
  | cons g gs ih => simp [ih]

theorem cstr_append_zero (got rest : List Byte) : cstr (got ++ 0 :: rest) = cstr got := by
  induction got with
  | nil => simp [cstr]
  | cons g gs ih =>
    unfold cstr at ih ⊢
    simp only [List.cons_append, List.takeWhile_cons, ih]

theorem cstr_of_no_zero (c : List Byte) (h : (0 : Byte) ∉ c) : cstr c = c := by
  induction c with
  | nil => simp [cstr]
  | cons g gs ih =>
    have hg : (g != 0) = true := by
      simp only [bne_iff_ne, ne_eq]
      intro h0
      exact h (by simp [h0])
    have hgs : (0 : Byte) ∉ gs := fun hm => h (List.mem_cons_of_mem _ hm)
    unfold cstr at ih ⊢
    simp only [List.takeWhile_cons, hg, ih hgs, if_true]

/-- After a successful `read` of `got` into a 256-byte buffer, the terminator store is in
bounds and produces `got`, a zero byte, and the old tail. -/
theorem store_after_read (buf got : List Byte) (hlen : buf.length = 256) (hgot : got.length ≤ 255) :
    store (got ++ buf.drop got.length) (got.length : Int) 0
      = some (got ++ 0 :: buf.drop (got.length + 1)) := by
  have hlt : got.length < buf.length := by omega
  have hdrop : buf.drop got.length = buf[got.length] :: buf.drop (got.length + 1) :=
    List.drop_eq_getElem_cons hlt
  unfold store
  have hcond : (0 : Int) ≤ (got.length : Int) ∧
      (got.length : Int).toNat < (got ++ buf.drop got.length).length := by
    constructor
    · exact Int.ofNat_nonneg _
    · simp only [Int.toNat_ofNat, List.length_append, List.length_drop]
      omega
  rw [if_pos hcond, hdrop]
  simp only [Int.toNat_ofNat]
  rw [set_append_length]

/-! ## The loop body, call by call -/

theorem sys_read_data (avail buf : List Byte) (hlen : buf.length = 256) :
    sys_read (ReadResult.data avail) (BUFFER_SIZE - 1) buf
      = some (((avail.take 255).length : Int), avail.take 255 ++ buf.drop (avail.take 255).length) := by
  have h : (avail.take 255).length ≤ buf.length := by
    have := List.length_take_le 255 avail
    omega
  simp only [sys_read, BUFFER_SIZE, Nat.add_one_sub_one]
  rw [if_pos h]

theorem bufferAfter_length (r : ReadResult) (buf : List Byte) (hlen : buf.length = 256) :
    (bufferAfter r buf).length = 256 := by
  unfold bufferAfter
  split
  · exact hlen
  · have := chunkOf_length r
    simp only [List.length_append, List.length_cons, List.length_drop]
    omega

theorem read_master_eq (w : Wake) (s : State) (hlen : s.buffer.length = 256) :
    read_master w s = some (afterMaster w s) := by
  unfold afterMaster
  cases hr : w.masterRead with
  | error e =>
    simp only [read_master, hr, sys_read]
    rw [if_neg (by decide)]
    simp [masterActs, chunkOf, retOf, bufferAfter, BUFFER_SIZE]
  | data avail =>
    by_cases hgot : avail.take 255 = []
    · simp only [read_master, hr, sys_read_data avail s.buffer hlen, hgot, List.length_nil]
      rw [if_neg (by decide)]
      simp [masterActs, chunkOf, retOf, bufferAfter, hgot, BUFFER_SIZE]
    · have hpos : ((avail.take 255).length : Int) > 0 := by
        have : 0 < (avail.take 255).length := List.length_pos.mpr hgot
        exact_mod_cast this
      have hle : (avail.take 255).length ≤ 255 := by
        simp only [List.length_take]
        omega
      simp only [read_master, hr, sys_read_data avail s.buffer hlen]
      rw [if_pos hpos]
      simp only [store_after_read s.buffer (avail.take 255) hlen hle]
      simp only [emit, cstr_append_zero, masterActs, chunkOf, retOf, bufferAfter, hgot, if_false,
          List.append_assoc, List.cons_append, List.nil_append, BUFFER_SIZE, Nat.add_one_sub_one]

theorem take_length_append (got rest : List Byte) : (got ++ rest).take got.length = got := by
  induction got with
  | nil => simp
  | cons g gs ih => simp [ih]

theorem read_stdin_eq (w : Wake) (s : State) (hlen : s.buffer.length = 256) :
    read_stdin w s = some (afterStdin w s) := by
  unfold afterStdin
  cases hr : w.stdinRead with
  | error e =>
    simp only [read_stdin, hr, sys_read]
    rw [if_neg (by decide)]
    simp [stdinActs, chunkOf, retOf, bufferAfter, BUFFER_SIZE]
  | data avail =>
    by_cases hgot : avail.take 255 = []
    · simp only [read_stdin, hr, sys_read_data avail s.buffer hlen, hgot, List.length_nil]
      rw [if_neg (by decide)]
      simp [stdinActs, chunkOf, retOf, bufferAfter, hgot, BUFFER_SIZE]
    · have hpos : ((avail.take 255).length : Int) > 0 := by
        have : 0 < (avail.take 255).length := List.length_pos.mpr hgot
        exact_mod_cast this
      have hle : (avail.take 255).length ≤ 255 := by
        simp only [List.length_take]
        omega
      simp only [read_stdin, hr, sys_read_data avail s.buffer hlen]
      rw [if_pos hpos]
      simp only [store_after_read s.buffer (avail.take 255) hlen hle]
      simp only [emit, stdinActs, chunkOf, retOf, bufferAfter, hgot, if_false, Int.toNat_ofNat,
          take_length_append, List.append_assoc, List.cons_append, List.nil_append, BUFFER_SIZE,
          Nat.add_one_sub_one]

theorem afterMaster_length (w : Wake) (s : State) (hlen : s.buffer.length = 256) :
    (afterMaster w s).buffer.length = 256 :=
  bufferAfter_length _ _ hlen

theorem afterStdin_length (w : Wake) (s : State) (hlen : s.buffer.length = 256) :
    (afterStdin w s).buffer.length = 256 :=
  bufferAfter_length _ _ hlen

theorem loop_body_eq (w : Wake) (s : State) (hlen : s.buffer.length = 256) :
    loop_body w s = some (afterBody w s) := by
  unfold loop_body afterBody
  have h1 : (emit s (Act.select ((if s.master_fd > STDIN_FILENO then s.master_fd
      else STDIN_FILENO) + 1) w.selectRet)).buffer.length = 256 := hlen
  by_cases hsel : w.selectRet > 0
  · simp only [hsel, if_true]
    cases hm : w.masterSet
    · cases hs : w.stdinSet
      · simp
      · simp only [if_true, Bool.false_eq_true, if_false]
        exact read_stdin_eq w _ h1
    · simp only [if_true, read_master_eq w _ h1]
      cases hs : w.stdinSet
      · simp
      · simp only [if_true]
        exact read_stdin_eq w _ (afterMaster_length w _ h1)
  · simp only [hsel, if_false]

theorem afterBody_length (w : Wake) (s : State) (hlen : s.buffer.length = 256) :
    (afterBody w s).buffer.length = 256 := by
  unfold afterBody
  have h1 : (emit s (Act.select ((if s.master_fd > STDIN_FILENO then s.master_fd
      else STDIN_FILENO) + 1) w.selectRet)).buffer.length = 256 := hlen
  by_cases hsel : w.selectRet > 0
  · simp only [hsel, if_true]
    cases w.masterSet <;> cases w.stdinSet <;>
      simp only [if_true, Bool.false_eq_true, if_false]
    · exact h1
    · exact afterStdin_length w _ h1
    · exact afterMaster_length w _ h1
    · exact afterStdin_length w _ (afterMaster_length w _ h1)
  · simp only [hsel, if_false]
    exact h1

theorem afterBody_master_fd (w : Wake) (s : State) : (afterBody w s).master_fd = s.master_fd := by
  unfold afterBody
  by_cases hsel : w.selectRet > 0
  · simp only [hsel, if_true]
    cases w.masterSet <;> cases w.stdinSet <;> rfl
  · simp only [hsel, if_false]
    rfl

theorem afterBody_trace (w : Wake) (s : State) :
    (afterBody w s).trace = s.trace ++ bodyActs s.master_fd w := by
  unfold afterBody bodyActs
  by_cases hsel : w.selectRet > 0
  · simp only [hsel, if_true]
    cases w.masterSet <;> cases w.stdinSet <;>
      simp [afterMaster, afterStdin, emit]
  · simp only [hsel, if_false]
    simp [emit]

/-! ## The loop as a whole -/

theorem loop_cond_true : loop_cond = true := by decide

theorem live_cons_wake (w : Wake) (rest : List Event) :
    live (Event.wake w :: rest) = Event.wake w :: live rest := by
  simp [live, List.takeWhile_cons]

theorem live_cons_winch (a : winsize) (rest : List Event) :
    live (Event.winch a :: rest) = Event.winch a :: live rest := by
  simp [live, List.takeWhile_cons]

theorem live_cons_kill (rest : List Event) : live (Event.kill :: rest) = [] := by
  simp [live, List.takeWhile_cons]

theorem live_of_no_kill (evs : List Event) (h : Event.kill ∉ evs) : live evs = evs := by
  induction evs with
  | nil => rfl
  | cons ev rest ih =>
    have hrest : Event.kill ∉ rest := fun hm => h (List.mem_cons_of_mem _ hm)
    cases ev with
    | wake w => rw [live_cons_wake, ih hrest]
    | winch a => rw [live_cons_winch, ih hrest]
    | kill => exact absurd (List.mem_cons_self _ _) h

/-- The loop never leaves `while (1)` on its own: after any events it is either still
inside the loop, blocked in `select`, or the process was terminated from outside; the
calls made are those of the events handled, in order. -/
theorem run_loop_spec (evs : List Event) (s : State) (hlen : s.buffer.length = 256) :
    ∃ s1, run_loop evs s = (if Event.kill ∈ evs then Outcome.killed s1 else Outcome.running s1) ∧
      s1.master_fd = s.master_fd ∧ s1.buffer.length = 256 ∧
      s1.trace = s.trace ++ loopActs s.master_fd (live evs) := by
  induction evs generalizing s with
  | nil =>
    refine ⟨s, ?_, rfl, hlen, ?_⟩
    · simp [run_loop, loop_cond_true]
    · simp [live, loopActs]
  | cons ev rest ih =>
    cases ev with
    | kill =>
      refine ⟨s, ?_, rfl, hlen, ?_⟩
      · simp [run_loop, loop_cond_true]
      · simp [live_cons_kill, loopActs]
    | winch a =>
      have hlen1 : (handle_resize SIGWINCH a s).buffer.length = 256 := by
        simp [handle_resize, emit, hlen]
      obtain ⟨s1, hrun, hfd, hl, htr⟩ := ih (handle_resize SIGWINCH a s) hlen1
      refine ⟨s1, ?_, ?_, hl, ?_⟩
      · simp only [run_loop, loop_cond_true, if_true, hrun, List.mem_cons, false_or,
          reduceCtorEq]
      · rw [hfd]
        simp [handle_resize, emit]
      · rw [htr, live_cons_winch]
        simp [handle_resize, emit, loopActs, eventActs]
    | wake w =>
      obtain ⟨s1, hrun, hfd, hl, htr⟩ := ih (afterBody w s) (afterBody_length w s hlen)
      refine ⟨s1, ?_, ?_, hl, ?_⟩
      · simp only [run_loop, loop_cond_true, if_true, loop_body_eq w s hlen, hrun,
          List.mem_cons, false_or, reduceCtorEq]
      · rw [hfd, afterBody_master_fd]
      · rw [htr, live_cons_wake, afterBody_trace, afterBody_master_fd]
        simp [loopActs, eventActs]

theorem setup_parent (env : Env) (s : State) (h1 : env.forkptyRet ≠ -1)
    (h0 : env.forkptyRet ≠ 0) :
    setup_unix_terminal env s = Except.ok
      { s with
        master_fd := env.forkptyMaster, child_pid := env.forkptyRet,
        trace := s.trace ++ [Act.forkpty ⟨24, 80, 0, 0⟩ env.forkptyRet] } := by
  unfold setup_unix_terminal
  simp only [h1, h0, if_false, or_self]

theorem init_colors_ok (env : Env) (s : State) (hc : env.hasColors = true) :
    init_colors env s = Except.ok
      { s with trace := s.trace ++ [Act.has_colors true, Act.start_color,
                                     Act.init_pair 1 COLOR_GREEN COLOR_BLACK] } := by
  unfold init_colors
  simp only [hc, emit, Bool.true_eq_false, if_false, List.append_assoc, List.cons_append,
    List.nil_append]

/-- The parent with a colour terminal reaches the loop with the setup calls made. -/
theorem main_parent (env : Env) (evs : List Event) (h1 : env.forkptyRet ≠ -1)
    (h0 : env.forkptyRet ≠ 0) (hc : env.hasColors = true) :
    main env evs = run_loop evs (loopEntry env) := by
  unfold main
  rw [setup_parent env _ h1 h0]
  unfold initial loopEntry
  generalize stackBuffer env = buf
  simp only [init_colors_ok _ _ hc, emit, setupActs, List.append_assoc, List.cons_append,
    List.nil_append]

theorem loopEntry_length (env : Env) : (loopEntry env).buffer.length = 256 := by
  simp only [loopEntry, stackBuffer, List.length_ofFn]

/-- Full description of a run of the parent with a colour terminal. -/
theorem main_parent_spec (env : Env) (evs : List Event) (h1 : env.forkptyRet ≠ -1)
    (h0 : env.forkptyRet ≠ 0) (hc : env.hasColors = true) :
    ∃ s1, main env evs = (if Event.kill ∈ evs then Outcome.killed s1 else Outcome.running s1) ∧
      s1.master_fd = env.forkptyMaster ∧ s1.buffer.length = 256 ∧
      s1.trace = setupActs env ++ loopActs env.forkptyMaster (live evs) := by
  rw [main_parent env evs h1 h0 hc]
  exact run_loop_spec evs (loopEntry env) (loopEntry_length env)

/-! ## What the observations see of the loop -/

theorem bodyActs_all_loopAct (fd : Int) (w : Wake) : (bodyActs fd w).all loopAct = true := by
  unfold bodyActs masterActs stdinActs
  split_ifs <;> simp [loopAct]

theorem loopActs_all_loopAct (fd : Int) (evs : List Event) :
    ∀ a ∈ loopActs fd evs, loopAct a = true := by
  intro a ha
  simp only [loopActs, List.mem_flatMap] at ha
  obtain ⟨ev, _, hev⟩ := ha
  cases ev with
  | wake w => exact List.all_eq_true.mp (bodyActs_all_loopAct fd w) a hev
  | winch actual =>
    simp only [eventActs, List.mem_singleton] at hev
    rw [hev]
    rfl
  | kill => simp [eventActs] at hev

theorem rendered_append (a b : List Act) : rendered (a ++ b) = rendered a ++ rendered b := by
  simp [rendered]

theorem ptyReceived_append (fd : Int) (a b : List Act) :
    ptyReceived fd (a ++ b) = ptyReceived fd a ++ ptyReceived fd b := by
  simp [ptyReceived]

theorem stderrOut_append (a b : List Act) : stderrOut (a ++ b) = stderrOut a ++ stderrOut b := by
  simp [stderrOut]

theorem cstr_nil : cstr [] = [] := rfl

theorem rendered_bodyActs (fd : Int) (w : Wake) :
    rendered (bodyActs fd w) = cstr (masterChunk w) := by
  unfold bodyActs masterActs stdinActs masterChunk
  cases w.masterSet <;> split_ifs <;> simp_all [rendered, cstr_nil]

theorem ptyReceived_bodyActs (fd : Int) (w : Wake) :
    ptyReceived fd (bodyActs fd w) = acceptedOf w := by
  unfold bodyActs masterActs stdinActs acceptedOf stdinChunk
  cases w.stdinSet <;> split_ifs <;> simp_all [ptyReceived]

theorem stderrOut_bodyActs (fd : Int) (w : Wake) : stderrOut (bodyActs fd w) = [] := by
  unfold bodyActs masterActs stdinActs
  split_ifs <;> simp [stderrOut]

/-- The renderer gets, for each chunk read from the pty master, the bytes of the chunk
that precede its first zero byte. -/
theorem rendered_loopActs (fd : Int) (evs : List Event) :
    rendered (loopActs fd evs) = ((masterChunks evs).map cstr).flatten := by
  induction evs with
  | nil => rfl
  | cons ev rest ih =>
    have hsplit : loopActs fd (ev :: rest) = eventActs fd ev ++ loopActs fd rest := by
      simp [loopActs]
    rw [hsplit, rendered_append, ih]
    cases ev with
    | wake w =>
      simp only [eventActs, rendered_bodyActs, masterChunks, List.filterMap_cons]
      by_cases hc : masterChunk w = []
      · simp [hc, cstr_nil]
      · simp [hc]
    | winch actual => simp [eventActs, rendered, masterChunks]
    | kill => simp [eventActs, rendered, masterChunks]

theorem ptyReceived_loopActs (fd : Int) (evs : List Event) :
    ptyReceived fd (loopActs fd evs) = acceptedBytes evs := by
  induction evs with
  | nil => rfl
  | cons ev rest ih =>
    have hsplit : loopActs fd (ev :: rest) = eventActs fd ev ++ loopActs fd rest := by
      simp [loopActs]
    rw [hsplit, ptyReceived_append, ih]
    cases ev with
    | wake w => simp [eventActs, ptyReceived_bodyActs, acceptedBytes]
    | winch actual => simp [eventActs, ptyReceived, acceptedBytes]
    | kill => simp [eventActs, ptyReceived, acceptedBytes]

theorem stderrOut_loopActs (fd : Int) (evs : List Event) : stderrOut (loopActs fd evs) = [] := by
  induction evs with
  | nil => rfl
  | cons ev rest ih =>
    have hsplit : loopActs fd (ev :: rest) = eventActs fd ev ++ loopActs fd rest := by
      simp [loopActs]
    rw [hsplit, stderrOut_append, ih]
    cases ev with
    | wake w => simp [eventActs, stderrOut_bodyActs]
    | winch actual => simp [eventActs, stderrOut]
    | kill => simp [eventActs, stderrOut]

theorem rendered_setupActs (env : Env) : rendered (setupActs env) = [] := by
  simp [rendered, setupActs]

theorem ptyReceived_setupActs (fd : Int) (env : Env) : ptyReceived fd (setupActs env) = [] := by
  simp [ptyReceived, setupActs]

theorem stderrOut_setupActs (env : Env) : stderrOut (setupActs env) = [] := by
  simp [stderrOut, setupActs]

theorem acceptedOf_full (w : Wake) (h : fullWrite w = true) : acceptedOf w = stdinChunk w := by
  unfold fullWrite at h
  unfold acceptedOf
  cases hw : w.writeRes with
  | error e =>
    rw [hw] at h
    have h2 : stdinChunk w = [] := List.isEmpty_iff.mp h
    rw [h2, List.take_nil]
  | accept room =>
    rw [hw] at h
    have h2 : (stdinChunk w).length ≤ room := of_decide_eq_true h
    simp only [sys_write, Nat.min_eq_right h2, Int.toNat_ofNat, List.take_length]

theorem acceptedBytes_cons_wake (w : Wake) (rest : List Event) :
    acceptedBytes (Event.wake w :: rest) = acceptedOf w ++ acceptedBytes rest := by
  simp only [acceptedBytes, List.flatMap_cons]

theorem acceptedBytes_cons_winch (a : winsize) (rest : List Event) :
    acceptedBytes (Event.winch a :: rest) = acceptedBytes rest := by
  simp only [acceptedBytes, List.flatMap_cons, List.nil_append]

theorem acceptedBytes_cons_kill (rest : List Event) :
    acceptedBytes (Event.kill :: rest) = acceptedBytes rest := by
  simp only [acceptedBytes, List.flatMap_cons, List.nil_append]

theorem acceptedBytes_full (evs : List Event) (h : ∀ w, Event.wake w ∈ evs → fullWrite w = true) :
    acceptedBytes evs = (stdinChunks evs).flatten := by
  induction evs with
  | nil => rfl
  | cons ev rest ih =>
    have hrest : ∀ w, Event.wake w ∈ rest → fullWrite w = true :=
      fun w hw => h w (List.mem_cons_of_mem _ hw)
    cases ev with
    | wake w =>
      have hw : acceptedOf w = stdinChunk w := acceptedOf_full w (h w (List.mem_cons_self _ _))
      rw [acceptedBytes_cons_wake, ih hrest, hw]
      simp only [stdinChunks, List.filterMap_cons]
      by_cases hc : stdinChunk w = []
      · simp [hc]
      · simp [hc]
    | winch actual =>
      rw [acceptedBytes_cons_winch, ih hrest]
      simp [stdinChunks]
    | kill =>
      rw [acceptedBytes_cons_kill, ih hrest]
      simp [stdinChunks]

theorem masterChunk_length (w : Wake) : (masterChunk w).length ≤ 255 := by
  unfold masterChunk
  split
  · exact chunkOf_length _
  · simp

theorem masterChunks_shape (evs : List Event) :
    ∀ c ∈ masterChunks evs, c ≠ [] ∧ c.length ≤ 255 := by
  intro c hc
  simp only [masterChunks, List.mem_filterMap] at hc
  obtain ⟨ev, _, hev⟩ := hc
  cases ev with
  | wake w =>
    by_cases hw : masterChunk w = []
    · simp [hw] at hev
    · simp only [hw, if_false, Option.some.injEq] at hev
      rw [← hev]
      exact ⟨hw, masterChunk_length w⟩
  | winch actual => simp at hev
  | kill => simp at hev

theorem map_cstr_of_no_zero (cs : List (List Byte)) (h : ∀ c ∈ cs, (0 : Byte) ∉ c) :
    cs.map cstr = cs := by
  induction cs with
  | nil => rfl
  | cons c rest ih =>
    rw [List.map_cons, cstr_of_no_zero c (h c (List.mem_cons_self _ _)),
      ih (fun d hd => h d (List.mem_cons_of_mem _ hd))]

/-! ## The other ways through `main` -/

/-- When `forkpty` fails, `main` ends in `setup_unix_terminal`. -/
theorem main_forkpty_failed (env : Env) (evs : List Event) (h : env.forkptyRet = -1) :
    main env evs = Outcome.exited EXIT_FAILURE
      { master_fd := 0, child_pid := -1, buffer := stackBuffer env, nbytes := 0,
        trace := [Act.forkpty ⟨24, 80, 0, 0⟩ (-1), Act.perror "forkpty",
                  Act.exit EXIT_FAILURE] } := by
  unfold main initial
  generalize stackBuffer env = buf
  simp only [setup_unix_terminal, h, emit, if_true, true_or, List.nil_append,
    List.cons_append, List.append_assoc]

/-- In the child, a failing `execlp` ends the process in `setup_unix_terminal`. -/
theorem main_child_exec_failed (env : Env) (evs : List Event) (h : env.forkptyRet = 0)
    (hx : env.execlpFails = true) :
    main env evs = Outcome.exited EXIT_FAILURE
      { master_fd := 0, child_pid := 0, buffer := stackBuffer env, nbytes := 0,
        trace := [Act.forkpty ⟨24, 80, 0, 0⟩ 0, Act.execlp "/bin/bash", Act.perror "execlp",
                  Act.exit EXIT_FAILURE] } := by
  have hne : ¬ ((0 : Int) = -1) := by decide
  unfold main initial
  generalize stackBuffer env = buf
  simp only [setup_unix_terminal, h, hx, hne, emit, if_true, if_false, or_true,
    List.nil_append, List.cons_append, List.append_assoc]

/-- In the child, a successful `execlp` replaces the process by the shell. -/
theorem main_child_execed (env : Env) (evs : List Event) (h : env.forkptyRet = 0)
    (hx : env.execlpFails = false) :
    main env evs = Outcome.execed
      { master_fd := 0, child_pid := 0, buffer := stackBuffer env, nbytes := 0,
        trace := [Act.forkpty ⟨24, 80, 0, 0⟩ 0, Act.execlp "/bin/bash"] } := by
  have hne : ¬ ((0 : Int) = -1) := by decide
  unfold main initial
  generalize stackBuffer env = buf
  simp only [setup_unix_terminal, h, hx, hne, emit, if_true, if_false, or_true,
    List.nil_append, List.cons_append, List.append_assoc, Bool.false_eq_true]

/-- In the parent, a terminal without colours ends `main` in `init_colors`. -/
theorem main_no_colors (env : Env) (evs : List Event) (h1 : env.forkptyRet ≠ -1)
    (h0 : env.forkptyRet ≠ 0) (hc : env.hasColors = false) :
    main env evs = Outcome.exited 1
      { master_fd := env.forkptyMaster, child_pid := env.forkptyRet,
        buffer := stackBuffer env, nbytes := 0,
        trace := [Act.forkpty ⟨24, 80, 0, 0⟩ env.forkptyRet, Act.signal SIGWINCH, Act.initscr,
                  Act.raw, Act.keypad, Act.noecho, Act.has_colors false, Act.endwin,
                  Act.fprintf_stderr "Your terminal does not support color\n", Act.exit 1] } := by
  unfold main
  rw [setup_parent env _ h1 h0]
  unfold initial
  generalize stackBuffer env = buf
  simp only [init_colors, hc, emit, if_true, List.nil_append, List.cons_append,
    List.append_assoc]

/-- The loop never ends with an exit: it is left only by outside termination. -/
theorem run_loop_not_exited (evs : List Event) (s : State) (hlen : s.buffer.length = 256)
    (status : Int) (st : State) : run_loop evs s ≠ Outcome.exited status st := by
  obtain ⟨s1, hrun, _⟩ := run_loop_spec evs s hlen
  rw [hrun]
  split <;> simp

theorem run_loop_not_fault (evs : List Event) (s : State) (hlen : s.buffer.length = 256)
    (st : State) : run_loop evs s ≠ Outcome.fault st := by
  obtain ⟨s1, hrun, _⟩ := run_loop_spec evs s hlen
  rw [hrun]
  split <;> simp

/-! ## Terminal mode, pty window size and write count along the loop -/

theorem foldl_neutral {β : Type} (f : β → Act → β) (l : List Act)
    (h : ∀ a ∈ l, ∀ b, f b a = b) (b : β) : l.foldl f b = b := by
  induction l with
  | nil => rfl
  | cons a rest ih =>
    rw [List.foldl_cons, h a (List.mem_cons_self _ _) b]
    exact ih (fun c hc => h c (List.mem_cons_of_mem _ hc))

/-- The calls of the loop leave the terminal mode as it was. -/
theorem rawActive_append_loop (pre l : List Act) (hl : ∀ a ∈ l, loopAct a = true) :
    rawActive (pre ++ l) = rawActive pre := by
  unfold rawActive
  rw [List.foldl_append]
  apply foldl_neutral
  intro a ha b
  have := hl a ha
  cases a <;> simp_all [loopAct]

/-- The calls of the loop leave the pty window size as it was. -/
theorem ptyWinsize_append_loop (fd : Int) (pre l : List Act) (hl : ∀ a ∈ l, loopAct a = true) :
    ptyWinsize fd (pre ++ l) = ptyWinsize fd pre := by
  unfold ptyWinsize
  rw [List.foldl_append]
  apply foldl_neutral
  intro a ha b
  have := hl a ha
  cases a <;> simp_all [loopAct]

theorem writeCount_append (a b : List Act) : writeCount (a ++ b) = writeCount a + writeCount b := by
  simp [writeCount]

theorem writeCount_bodyActs (fd : Int) (w : Wake) :
    writeCount (bodyActs fd w) = if stdinChunk w = [] then 0 else 1 := by
  unfold bodyActs masterActs stdinActs stdinChunk
  cases w.stdinSet <;> split_ifs <;> simp_all [writeCount]

/-- One `write` is issued per non-empty keystroke chunk, and no other. -/
theorem writeCount_loopActs (fd : Int) (evs : List Event) :
    writeCount (loopActs fd evs) = (stdinChunks evs).length := by
  induction evs with
  | nil => rfl
  | cons ev rest ih =>
    have hsplit : loopActs fd (ev :: rest) = eventActs fd ev ++ loopActs fd rest := by
      simp [loopActs]
    rw [hsplit, writeCount_append, ih]
    cases ev with
    | wake w =>
      simp only [eventActs, writeCount_bodyActs, stdinChunks, List.filterMap_cons]
      by_cases hc : stdinChunk w = []
      · simp [hc]
      · simp [hc]
        omega
    | winch actual => simp [eventActs, writeCount, stdinChunks]
    | kill => simp [eventActs, writeCount, stdinChunks]

/-! ## Bounds on reads and terminator stores -/

theorem chunkOf_nil_of_retOf_nonpos (r : ReadResult) (h : retOf r ≤ 0) : chunkOf r = [] := by
  cases r with
  | error e => rfl
  | data avail =>
    simp only [retOf] at h
    have h0 : (List.take 255 avail).length = 0 := by omega
    exact List.length_eq_zero.mp h0

theorem retOf_pos (r : ReadResult) (h : chunkOf r ≠ []) : 0 < retOf r := by
  rw [retOf_eq_length r h]
  exact_mod_cast List.length_pos.mpr h

theorem masterActs_bounded (fd : Int) (r : ReadResult) : ∀ a ∈ masterActs fd r, boundedAct a = true := by
  have hle := retOf_le r
  intro a ha
  unfold masterActs at ha
  split_ifs at ha with hc
  · simp only [List.mem_singleton] at ha
    subst ha
    exact decide_eq_true ⟨rfl, by decide, hle⟩
  · have hpos := retOf_pos r hc
    simp only [List.mem_cons, List.mem_singleton, List.not_mem_nil, or_false] at ha
    rcases ha with rfl | rfl | rfl | rfl
    · exact decide_eq_true ⟨rfl, by decide, hle⟩
    · exact decide_eq_true ⟨hpos, by omega⟩
    · rfl
    · rfl

theorem stdinActs_bounded (fd : Int) (r : ReadResult) (wr : WriteResult) :
    ∀ a ∈ stdinActs fd r wr, boundedAct a = true := by
  have hle := retOf_le r
  intro a ha
  unfold stdinActs at ha
  split_ifs at ha with hc
  · simp only [List.mem_singleton] at ha
    subst ha
    exact decide_eq_true ⟨rfl, by decide, hle⟩
  · have hpos := retOf_pos r hc
    simp only [List.mem_cons, List.mem_singleton, List.not_mem_nil, or_false] at ha
    rcases ha with rfl | rfl | rfl
    · exact decide_eq_true ⟨rfl, by decide, hle⟩
    · exact decide_eq_true ⟨hpos, by omega⟩
    · rfl

theorem bodyActs_bounded (fd : Int) (w : Wake) : ∀ a ∈ bodyActs fd w, boundedAct a = true := by
  intro a ha
  unfold bodyActs at ha
  rcases List.mem_cons.mp ha with rfl | ha
  · rfl
  · split_ifs at ha
    · rcases List.mem_append.mp ha with hm | hs
      · exact masterActs_bounded fd _ a hm
      · exact stdinActs_bounded fd _ _ a hs
    · rcases List.mem_append.mp ha with hm | hs
      · exact masterActs_bounded fd _ a hm
      · simp at hs
    · rcases List.mem_append.mp ha with hm | hs
      · simp at hm
      · exact stdinActs_bounded fd _ _ a hs
    · simp at ha
    · simp at ha

theorem main_not_fault (env : Env) (evs : List Event) (st : State) :
    main env evs ≠ Outcome.fault st := by
  by_cases h1 : env.forkptyRet = -1
  · rw [main_forkpty_failed env evs h1]
    simp
  · by_cases h0 : env.forkptyRet = 0
    · cases hx : env.execlpFails
      · rw [main_child_execed env evs h0 hx]
        simp
      · rw [main_child_exec_failed env evs h0 hx]
        simp
    · cases hc : env.hasColors
      · rw [main_no_colors env evs h1 h0 hc]
        simp
      · rw [main_parent env evs h1 h0 hc]
        exact run_loop_not_fault evs _ (loopEntry_length env) st

/-- A run of `parentEnv` that is not terminated from outside is inside the loop, with
master descriptor 3 and the setup calls followed by the calls of the events. -/
theorem parent_run (evs : List Event) (hk : Event.kill ∉ evs) :
    ∃ s, main parentEnv evs = Outcome.running s ∧ s.master_fd = 3 ∧
      s.trace = setupActs parentEnv ++ loopActs 3 evs := by
  obtain ⟨s, hrun, hfd, _, htr⟩ := main_parent_spec parentEnv evs (by decide) (by decide) rfl
  rw [if_neg hk] at hrun
  rw [live_of_no_kill evs hk] at htr
  exact ⟨s, hrun, hfd, htr⟩

/-- Under no environment and after no sequence of events has `main` returned 0: the
statements after `while (1)` are never reached. -/
theorem main_never_returns (env : Env) (evs : List Event) (st : State) :
    main env evs ≠ Outcome.exited 0 st := by
  by_cases h1 : env.forkptyRet = -1
  · rw [main_forkpty_failed env evs h1]
    simp [EXIT_FAILURE]
  · by_cases h0 : env.forkptyRet = 0
    · cases hx : env.execlpFails
      · rw [main_child_execed env evs h0 hx]
        simp
      · rw [main_child_exec_failed env evs h0 hx]
        simp [EXIT_FAILURE]
    · cases hc : env.hasColors
      · rw [main_no_colors env evs h1 h0 hc]
        simp
      · rw [main_parent env evs h1 h0 hc]
        exact run_loop_not_exited evs _ (loopEntry_length env) 0 st

/-! ## Claims -/

/-- C1, as stated, fails: the master read returns the single 3-byte chunk `A`, NUL, `B`
and `printw("%s", buffer)` hands only `A` to the renderer. -/
theorem C1_counterexample :
    masterChunks nulEvents = [[65, 0, 66]] ∧
    ∃ s, main parentEnv nulEvents = Outcome.running s ∧ rendered s.trace = [65] ∧
      rendered s.trace ≠ (masterChunks nulEvents).flatten := by
  have hchunks : masterChunks nulEvents = [[65, 0, 66]] := by decide
  obtain ⟨s, hrun, _, _, htr⟩ :=
    main_parent_spec parentEnv nulEvents (by decide) (by decide) rfl
  rw [if_neg (by decide)] at hrun
  have hr : rendered s.trace = [65] := by
    rw [htr, rendered_append, rendered_setupActs, rendered_loopActs,
      live_of_no_kill nulEvents (by decide), hchunks]
    decide
  refine ⟨hchunks, s, hrun, hr, ?_⟩
  rw [hr, hchunks]
  decide

/-- C1 (amended): in the Unix loop of `main`, the chunks returned by the successful reads
of the pty master are non-empty and at most 255 bytes long, and the concatenation of the
strings handed to `printw` equals the concatenation of the chunks each cut at its first
zero byte, in order; when no chunk contains a zero byte it equals the concatenation of
the chunks themselves. -/
theorem C1_render_up_to_nul (env : Env) (evs : List Event) (h1 : env.forkptyRet ≠ -1)
    (h0 : env.forkptyRet ≠ 0) (hc : env.hasColors = true) (hk : Event.kill ∉ evs) :
    (∀ c ∈ masterChunks evs, c ≠ [] ∧ c.length ≤ 255) ∧
    ∃ s, main env evs = Outcome.running s ∧
      rendered s.trace = ((masterChunks evs).map cstr).flatten ∧
      ((∀ c ∈ masterChunks evs, (0 : Byte) ∉ c) →
        rendered s.trace = (masterChunks evs).flatten) := by
  obtain ⟨s, hrun, _, _, htr⟩ := main_parent_spec env evs h1 h0 hc
  rw [if_neg hk] at hrun
  have hr : rendered s.trace = ((masterChunks evs).map cstr).flatten := by
    rw [htr, rendered_append, rendered_setupActs, rendered_loopActs, live_of_no_kill evs hk]
    rfl
  refine ⟨masterChunks_shape evs, s, hrun, hr, ?_⟩
  intro hnul
  rw [hr, map_cstr_of_no_zero _ hnul]

/-- Witness for C1 (amended): the shell prints `hi` while the user types; the renderer
gets `hi`. -/
theorem C1_render_up_to_nul_witness :
    (parentEnv.forkptyRet ≠ -1 ∧ parentEnv.forkptyRet ≠ 0 ∧ parentEnv.hasColors = true ∧
      Event.kill ∉ typingEvents ∧ ∀ c ∈ masterChunks typingEvents, (0 : Byte) ∉ c) ∧
    ∃ s, main parentEnv typingEvents = Outcome.running s ∧ rendered s.trace = [104, 105] := by
  have hnul : ∀ c ∈ masterChunks typingEvents, (0 : Byte) ∉ c := by decide
  obtain ⟨_, s, hrun, _, hfull⟩ :=
    C1_render_up_to_nul parentEnv typingEvents (by decide) (by decide) rfl (by decide)
  exact ⟨⟨by decide, by decide, rfl, by decide, hnul⟩, s, hrun, (hfull hnul).trans (by decide)⟩

/-- C2: in the Unix loop of `main`, when every `write` on the pty master takes all the
bytes offered, the bytes received by the pty master are the concatenation of the chunks
read from standard input, in order, whatever the pty master delivers in the same
iterations. -/
theorem C2_keystrokes_forwarded (env : Env) (evs : List Event) (h1 : env.forkptyRet ≠ -1)
    (h0 : env.forkptyRet ≠ 0) (hc : env.hasColors = true) (hk : Event.kill ∉ evs)
    (hfull : ∀ w, Event.wake w ∈ evs → fullWrite w = true) :
    ∃ s, main env evs = Outcome.running s ∧
      ptyReceived s.master_fd s.trace = (stdinChunks evs).flatten := by
  obtain ⟨s, hrun, hfd, _, htr⟩ := main_parent_spec env evs h1 h0 hc
  rw [if_neg hk] at hrun
  refine ⟨s, hrun, ?_⟩
  rw [htr, hfd, ptyReceived_append, ptyReceived_setupActs, ptyReceived_loopActs,
    live_of_no_kill evs hk, acceptedBytes_full evs hfull]
  rfl

/-- Witness for C2: `ls` and newline are typed in an iteration in which the pty master is
readable too and delivers `hi`; the pty master receives `ls` and newline. -/
theorem C2_keystrokes_forwarded_witness :
    (parentEnv.forkptyRet ≠ -1 ∧ parentEnv.forkptyRet ≠ 0 ∧ parentEnv.hasColors = true ∧
      Event.kill ∉ typingEvents ∧ (∀ w, Event.wake w ∈ typingEvents → fullWrite w = true) ∧
      masterChunks typingEvents = [[104, 105]]) ∧
    ∃ s, main parentEnv typingEvents = Outcome.running s ∧
      ptyReceived s.master_fd s.trace = [108, 115, 10] := by
  have hfull : ∀ w, Event.wake w ∈ typingEvents → fullWrite w = true := by
    intro w hw
    simp only [typingEvents, List.mem_singleton, Event.wake.injEq] at hw
    subst hw
    decide
  obtain ⟨s, hrun, hrecv⟩ :=
    C2_keystrokes_forwarded parentEnv typingEvents (by decide) (by decide) rfl (by decide) hfull
  exact ⟨⟨by decide, by decide, rfl, by decide, hfull, by decide⟩, s, hrun,
    hrecv.trans (by decide)⟩

/-- C3 at the failing input: the pty master read returns 0 (shell gone), yet `main` is
still inside `while (1)`: it has not returned, the last call is that `read`, `endwin` was
never called and the terminal is still in raw mode. -/
theorem C3_eof_keeps_looping :
    ∃ s, main parentEnv eofEvents = Outcome.running s ∧
      s.trace = setupActs parentEnv ++ [Act.select 4 1, Act.read 3 255 0] ∧
      Act.endwin ∉ s.trace ∧ Act.attroff 1 ∉ s.trace ∧ rawActive s.trace = true ∧
      ∀ st, main parentEnv eofEvents ≠ Outcome.exited 0 st := by
  obtain ⟨s, hrun, _, htr⟩ := parent_run eofEvents (by decide)
  have hacts : loopActs 3 eofEvents = [Act.select 4 1, Act.read 3 255 0] := by decide
  rw [hacts] at htr
  refine ⟨s, hrun, htr, ?_, ?_, ?_, ?_⟩
  · rw [htr]
    decide
  · rw [htr]
    decide
  · rw [htr]
    decide
  · intro st
    rw [hrun]
    simp

/-- C4, as stated, fails: terminated by an uncaught signal inside the loop, the process
ends after `initscr` and `raw` without any `endwin`, the terminal still in raw mode. -/
theorem C4_counterexample :
    ∃ s, main parentEnv killEvents = Outcome.killed s ∧
      Act.initscr ∈ s.trace ∧ Act.raw ∈ s.trace ∧ Act.endwin ∉ s.trace ∧
      rawActive s.trace = true := by
  obtain ⟨s, hrun, _, _, htr⟩ :=
    main_parent_spec parentEnv killEvents (by decide) (by decide) rfl
  rw [if_pos (by decide)] at hrun
  have hacts : loopActs parentEnv.forkptyMaster (live killEvents) = [] := by decide
  rw [hacts] at htr
  refine ⟨s, hrun, ?_, ?_, ?_, ?_⟩ <;>
  · rw [htr]
    decide

/-- C4 (amended): whenever the program itself ends the process (`exit` in
`setup_unix_terminal` or `exit` in `init_colors`; the `return` of `main` is never
reached), the terminal is not in raw mode at that point: either `initscr` and `raw` were
never called or `endwin` has been called. -/
theorem C4_own_exits_restore (env : Env) (evs : List Event) (status : Int) (s : State)
    (h : main env evs = Outcome.exited status s) :
    rawActive s.trace = false ∧
      ((Act.initscr ∉ s.trace ∧ Act.raw ∉ s.trace) ∨ Act.endwin ∈ s.trace) := by
  by_cases h1 : env.forkptyRet = -1
  · rw [main_forkpty_failed env evs h1] at h
    injection h with _ hs
    subst hs
    exact ⟨by simp [rawActive], Or.inl (by simp)⟩
  · by_cases h0 : env.forkptyRet = 0
    · cases hx : env.execlpFails
      · rw [main_child_execed env evs h0 hx] at h
        exact absurd h (by simp)
      · rw [main_child_exec_failed env evs h0 hx] at h
        injection h with _ hs
        subst hs
        exact ⟨by simp [rawActive], Or.inl (by simp)⟩
    · cases hc : env.hasColors
      · rw [main_no_colors env evs h1 h0 hc] at h
        injection h with _ hs
        subst hs
        refine ⟨?_, Or.inr ?_⟩
        · simp [rawActive]
        · simp
      · rw [main_parent env evs h1 h0 hc] at h
        exact absurd h (run_loop_not_exited evs _ (loopEntry_length env) status s)

/-- Witness for C4 (amended): no colour support, `init_colors` calls `endwin` and exits. -/
theorem C4_own_exits_restore_witness :
    ∃ s, main monoEnv [] = Outcome.exited 1 s ∧ rawActive s.trace = false ∧
      ((Act.initscr ∉ s.trace ∧ Act.raw ∉ s.trace) ∨ Act.endwin ∈ s.trace) :=
  ⟨_, main_no_colors monoEnv [] (by decide) (by decide) rfl,
    C4_own_exits_restore monoEnv [] 1 _ (main_no_colors monoEnv [] (by decide) (by decide) rfl)⟩

/-- In the parent, whatever events arrive, the pty keeps the window size given to
`forkpty`: the loop and the resize handler never set it. -/
theorem pty_size_fixed (env : Env) (evs : List Event) (h1 : env.forkptyRet ≠ -1)
    (h0 : env.forkptyRet ≠ 0) (hc : env.hasColors = true) :
    ptyWinsize env.forkptyMaster (main env evs).state.trace = some ⟨24, 80, 0, 0⟩ := by
  obtain ⟨s, hrun, _, _, htr⟩ := main_parent_spec env evs h1 h0 hc
  have hst : (main env evs).state = s := by
    rw [hrun]
    split <;> rfl
  rw [hst, htr, ptyWinsize_append_loop _ _ _ (loopActs_all_loopAct _ _)]
  simp [ptyWinsize, setupActs, h1]

/-- C5 at the failing input: the terminal is resized to 40x120 and `SIGWINCH` arrives;
`handle_resize` queries the new size, but after the next loop iteration no call has set
the pty window size, which is still the 24x80 given to `forkpty`. -/
theorem C5_resize_not_applied :
    ∃ s, main parentEnv resizeEvents = Outcome.running s ∧
      s.trace = setupActs parentEnv ++
        [Act.ioctl_TIOCGWINSZ STDOUT_FILENO ⟨40, 120, 0, 0⟩, Act.select 4 (-1)] ∧
      ptyWinsize s.master_fd s.trace = some ⟨24, 80, 0, 0⟩ ∧
      ptyWinsize s.master_fd s.trace ≠ some ⟨40, 120, 0, 0⟩ := by
  obtain ⟨s, hrun, hfd, htr⟩ := parent_run resizeEvents (by decide)
  have hacts : loopActs 3 resizeEvents
      = [Act.ioctl_TIOCGWINSZ STDOUT_FILENO ⟨40, 120, 0, 0⟩, Act.select 4 (-1)] := by decide
  rw [hacts] at htr
  refine ⟨s, hrun, htr, ?_, ?_⟩
  · rw [htr, hfd]
    decide
  · rw [htr, hfd]
    decide

/-- The loop body does the same whatever `errno` a failed `read` reports, on the pty
master as on standard input: the error number is never looked at. -/
theorem errno_ignored (w : Wake) (s : State) (e1 e2 : Nat) :
    loop_body { w with masterRead := ReadResult.error e1 } s
        = loop_body { w with masterRead := ReadResult.error e2 } s ∧
    loop_body { w with stdinRead := ReadResult.error e1 } s
        = loop_body { w with stdinRead := ReadResult.error e2 } s := by
  constructor <;> simp only [loop_body, read_master, read_stdin, sys_read]

/-- C6, as stated, fails: the `read` of the pty master, then the `read` of standard input,
fail with `EIO`, which is not in the transient class, and the loop is still Running
afterwards: after each failure it went back to `select`, and `main` has not exited. -/
theorem C6_counterexample :
    transientErrno 5 = false ∧
    ∃ s, main parentEnv eioEvents = Outcome.running s ∧
      s.trace = setupActs parentEnv ++
        [Act.select 4 1, Act.read 3 255 (-1), Act.select 4 1, Act.read STDIN_FILENO 255 (-1)] ∧
      ∀ status st, main parentEnv eioEvents ≠ Outcome.exited status st := by
  refine ⟨by decide, ?_⟩
  obtain ⟨s, hrun, _, htr⟩ := parent_run eioEvents (by decide)
  have hacts : loopActs 3 eioEvents
      = [Act.select 4 1, Act.read 3 255 (-1), Act.select 4 1,
         Act.read STDIN_FILENO 255 (-1)] := by decide
  rw [hacts] at htr
  refine ⟨s, hrun, htr, ?_⟩
  intro status st
  rw [hrun]
  simp

/-- C6 (amended): a failed `read`, on the pty master or on standard input, is treated as
no data whatever its `errno`: `nbytes` becomes -1, the buffer is left alone and the only
call added is the `read` itself, so nothing is forwarded from that source; when the error
is transient, the loop is still Running after the iteration, with nothing handed to the
renderer (master failure) or to the pty master (standard-input failure). -/
theorem C6_failed_read_is_no_data (w : Wake) (s : State) (e : Nat)
    (hlen : s.buffer.length = BUFFER_SIZE) :
    (w.masterRead = ReadResult.error e →
      read_master w s = some
        { s with nbytes := -1, trace := s.trace ++ [Act.read s.master_fd 255 (-1)] }) ∧
    (w.stdinRead = ReadResult.error e →
      read_stdin w s = some
        { s with nbytes := -1, trace := s.trace ++ [Act.read STDIN_FILENO 255 (-1)] }) ∧
    (transientErrno e = true →
      w.masterRead = ReadResult.error e ∨ w.stdinRead = ReadResult.error e →
      ∃ s1, run_loop [Event.wake w] s = Outcome.running s1 ∧
        (w.masterRead = ReadResult.error e → rendered s1.trace = rendered s.trace) ∧
        (w.stdinRead = ReadResult.error e →
          ptyReceived s.master_fd s1.trace = ptyReceived s.master_fd s.trace)) := by
  have hlen1 : s.buffer.length = 256 := hlen
  refine ⟨?_, ?_, ?_⟩
  · intro hm
    simp only [read_master, hm, sys_read, BUFFER_SIZE, Nat.add_one_sub_one]
    rw [if_neg (by decide)]
  · intro hs
    simp only [read_stdin, hs, sys_read, BUFFER_SIZE, Nat.add_one_sub_one]
    rw [if_neg (by decide)]
  · intro _ _
    obtain ⟨s1, hrun, _, _, htr⟩ := run_loop_spec [Event.wake w] s hlen1
    rw [if_neg (by simp)] at hrun
    have hacts : loopActs s.master_fd (live [Event.wake w]) = bodyActs s.master_fd w := by
      simp [live_cons_wake, live, loopActs, eventActs]
    rw [hacts] at htr
    refine ⟨s1, hrun, ?_, ?_⟩
    · intro hm
      have hc : masterChunk w = [] := by simp [masterChunk, hm, chunkOf]
      rw [htr, rendered_append, rendered_bodyActs, hc, cstr_nil, List.append_nil]
    · intro hs
      have hc : acceptedOf w = [] := by simp [acceptedOf, stdinChunk, hs, chunkOf]
      rw [htr, ptyReceived_append, ptyReceived_bodyActs, hc, List.append_nil]

/-- Witness for C6 (amended): the `read` of the pty master fails with `EAGAIN` right after
the loop is entered. -/
theorem C6_failed_read_is_no_data_witness :
    ((loopEntry parentEnv).buffer.length = BUFFER_SIZE ∧
      eagainWake.masterRead = ReadResult.error 11 ∧ transientErrno 11 = true) ∧
    read_master eagainWake (loopEntry parentEnv) = some
      { loopEntry parentEnv with
        nbytes := -1
        trace := (loopEntry parentEnv).trace ++
          [Act.read (loopEntry parentEnv).master_fd 255 (-1)] } ∧
    ∃ s1, run_loop [Event.wake eagainWake] (loopEntry parentEnv) = Outcome.running s1 ∧
      rendered s1.trace = rendered (loopEntry parentEnv).trace := by
  have h := C6_failed_read_is_no_data eagainWake (loopEntry parentEnv) 11
    (loopEntry_length parentEnv)
  obtain ⟨s1, hrun, hr, _⟩ := h.2.2 (by decide) (Or.inl rfl)
  exact ⟨⟨loopEntry_length parentEnv, rfl, by decide⟩, h.1 rfl, s1, hrun, hr rfl⟩

/-- C7, as stated, fails: two bytes are typed, the `write` takes one; the loop issues that
single `write` and nothing else, even after the next wake-up: the pty master has received
only the first byte, and nothing was reported on the error stream. -/
theorem C7_counterexample :
    stdinChunks shortWriteEvents = [[97, 98]] ∧
    ∃ s, main parentEnv shortWriteEvents = Outcome.running s ∧
      s.trace = setupActs parentEnv ++
        [Act.select 4 1, Act.read STDIN_FILENO 255 2, Act.store 2, Act.write 3 [97, 98] 1,
         Act.select 4 (-1)] ∧
      ptyReceived s.master_fd s.trace = [97] ∧ stderrOut s.trace = [] := by
  refine ⟨by decide, ?_⟩
  obtain ⟨s, hrun, hfd, htr⟩ := parent_run shortWriteEvents (by decide)
  have hacts : loopActs 3 shortWriteEvents
      = [Act.select 4 1, Act.read STDIN_FILENO 255 2, Act.store 2, Act.write 3 [97, 98] 1,
         Act.select 4 (-1)] := by decide
  rw [hacts] at htr
  refine ⟨s, hrun, htr, ?_, ?_⟩
  · rw [htr, hfd]
    decide
  · rw [htr]
    decide

/-- C7 (amended): in the Unix loop of `main` exactly one `write` is issued per keystroke
chunk and its return value is dropped: the pty master receives, chunk after chunk, only
the leading bytes which that `write` took (none when it failed), nothing is reported on
the error stream, and the loop stays Running. -/
theorem C7_write_result_dropped (env : Env) (evs : List Event) (h1 : env.forkptyRet ≠ -1)
    (h0 : env.forkptyRet ≠ 0) (hc : env.hasColors = true) (hk : Event.kill ∉ evs) :
    ∃ s, main env evs = Outcome.running s ∧
      writeCount s.trace = (stdinChunks evs).length ∧
      ptyReceived s.master_fd s.trace = acceptedBytes evs ∧
      stderrOut s.trace = [] := by
  obtain ⟨s, hrun, hfd, _, htr⟩ := main_parent_spec env evs h1 h0 hc
  rw [if_neg hk] at hrun
  rw [live_of_no_kill evs hk] at htr
  refine ⟨s, hrun, ?_, ?_, ?_⟩
  · rw [htr, writeCount_append, writeCount_loopActs]
    simp [writeCount, setupActs]
  · rw [htr, hfd, ptyReceived_append, ptyReceived_setupActs, ptyReceived_loopActs]
    rfl
  · rw [htr, stderrOut_append, stderrOut_setupActs, stderrOut_loopActs]
    rfl

/-- Witness for C7 (amended): of the two bytes typed in `shortWriteEvents` the pty master
receives the first, through the only `write` made. -/
theorem C7_write_result_dropped_witness :
    (parentEnv.forkptyRet ≠ -1 ∧ parentEnv.forkptyRet ≠ 0 ∧ parentEnv.hasColors = true ∧
      Event.kill ∉ shortWriteEvents) ∧
    ∃ s, main parentEnv shortWriteEvents = Outcome.running s ∧
      writeCount s.trace = 1 ∧ ptyReceived s.master_fd s.trace = [97] ∧
      stderrOut s.trace = [] := by
  obtain ⟨s, hrun, hcount, hrecv, herr⟩ :=
    C7_write_result_dropped parentEnv shortWriteEvents (by decide) (by decide) rfl (by decide)
  exact ⟨⟨by decide, by decide, rfl, by decide⟩, s, hrun, hcount.trans (by decide),
    hrecv.trans (by decide), herr⟩

/-- C8: when `forkpty` returns -1, `main` ends in `setup_unix_terminal` with `perror`
followed by `exit(EXIT_FAILURE)`, a non-zero status; when the parent finds no colour
support, `main` ends in `init_colors` with `endwin`, then the message on `stderr`, then
`exit(1)`. -/
theorem C8_setup_failure_reported (env : Env) (evs : List Event) :
    (env.forkptyRet = -1 →
      ∃ s, main env evs = Outcome.exited EXIT_FAILURE s ∧ EXIT_FAILURE ≠ 0 ∧
        s.trace = [Act.forkpty ⟨24, 80, 0, 0⟩ (-1), Act.perror "forkpty",
                   Act.exit EXIT_FAILURE] ∧
        stderrOut s.trace = ["forkpty"]) ∧
    (env.forkptyRet ≠ -1 → env.forkptyRet ≠ 0 → env.hasColors = false →
      ∃ s, main env evs = Outcome.exited 1 s ∧
        s.trace = [Act.forkpty ⟨24, 80, 0, 0⟩ env.forkptyRet, Act.signal SIGWINCH,
                   Act.initscr, Act.raw, Act.keypad, Act.noecho, Act.has_colors false,
                   Act.endwin, Act.fprintf_stderr "Your terminal does not support color\n",
                   Act.exit 1] ∧
        stderrOut s.trace = ["Your terminal does not support color\n"]) := by
  constructor
  · intro h
    exact ⟨_, main_forkpty_failed env evs h, by decide, rfl, rfl⟩
  · intro h1 h0 hc
    exact ⟨_, main_no_colors env evs h1 h0 hc, rfl, rfl⟩

/-- Witness for C8: `forkpty` fails in `noPtyEnv`, the terminal of `monoEnv` has no
colours. -/
theorem C8_setup_failure_reported_witness :
    (∃ s, main noPtyEnv [] = Outcome.exited EXIT_FAILURE s ∧ EXIT_FAILURE ≠ 0 ∧
        s.trace = [Act.forkpty ⟨24, 80, 0, 0⟩ (-1), Act.perror "forkpty",
                   Act.exit EXIT_FAILURE] ∧
        stderrOut s.trace = ["forkpty"]) ∧
    (∃ s, main monoEnv [] = Outcome.exited 1 s ∧
        s.trace = [Act.forkpty ⟨24, 80, 0, 0⟩ monoEnv.forkptyRet, Act.signal SIGWINCH,
                   Act.initscr, Act.raw, Act.keypad, Act.noecho, Act.has_colors false,
                   Act.endwin, Act.fprintf_stderr "Your terminal does not support color\n",
                   Act.exit 1] ∧
        stderrOut s.trace = ["Your terminal does not support color\n"]) :=
  ⟨(C8_setup_failure_reported noPtyEnv []).1 rfl,
   (C8_setup_failure_reported monoEnv []).2 (by decide) (by decide) rfl⟩

/-- C9: the first call of `main` is the `forkpty` of `setup_unix_terminal`, and the window
size passed to it has 24 rows, 80 columns and zero pixel sizes; unless `forkpty` fails,
that is the window size of the pty from then on. -/
theorem C9_initial_winsize (env : Env) (evs : List Event) :
    (∃ tail, (main env evs).state.trace
        = Act.forkpty { ws_row := 24, ws_col := 80, ws_xpixel := 0, ws_ypixel := 0 }
            env.forkptyRet :: tail) ∧
    ptyWinsize env.forkptyMaster (main env evs).state.trace
      = if env.forkptyRet = -1 then none
        else some { ws_row := 24, ws_col := 80, ws_xpixel := 0, ws_ypixel := 0 } := by
  by_cases h1 : env.forkptyRet = -1
  · rw [main_forkpty_failed env evs h1, h1]
    exact ⟨⟨_, rfl⟩, by simp [Outcome.state, ptyWinsize]⟩
  · by_cases h0 : env.forkptyRet = 0
    · cases hx : env.execlpFails
      · rw [main_child_execed env evs h0 hx, h0]
        exact ⟨⟨_, rfl⟩, by simp [Outcome.state, ptyWinsize]⟩
      · rw [main_child_exec_failed env evs h0 hx, h0]
        exact ⟨⟨_, rfl⟩, by simp [Outcome.state, ptyWinsize]⟩
    · cases hc : env.hasColors
      · rw [main_no_colors env evs h1 h0 hc]
        exact ⟨⟨_, rfl⟩, by simp [Outcome.state, ptyWinsize, h1]⟩
      · refine ⟨?_, ?_⟩
        · obtain ⟨s, hrun, _, _, htr⟩ := main_parent_spec env evs h1 h0 hc
          have hst : (main env evs).state = s := by
            rw [hrun]
            split <;> rfl
          rw [hst, htr]
          exact ⟨_, rfl⟩
        · rw [pty_size_fixed env evs h1 h0 hc, if_neg h1]

/-- C10: the loop is entered with a 256-byte buffer and `main` never accesses it out of
bounds; one pass through the loop body on a 256-byte buffer always completes, every
`read` in it asks for 255 bytes (fewer than the 256 of the buffer) and returns at most
255, and every terminator store is at an index from 1 to 255; a `read` whose result is
not positive is followed by no store and leaves the buffer as it was. -/
theorem C10_buffer_bounds (env : Env) (evs : List Event) (w : Wake) (s : State)
    (hlen : s.buffer.length = BUFFER_SIZE) :
    ((loopEntry env).buffer.length = BUFFER_SIZE ∧ ∀ st, main env evs ≠ Outcome.fault st) ∧
    (∃ s1, loop_body w s = some s1 ∧ s1.buffer.length = BUFFER_SIZE ∧
      s1.trace = s.trace ++ bodyActs s.master_fd w ∧
      ∀ a ∈ bodyActs s.master_fd w, boundedAct a = true) ∧
    (∃ s1, read_master w s = some s1 ∧ s1.nbytes ≤ 255 ∧
      (s1.nbytes ≤ 0 →
        s1.buffer = s.buffer ∧ s1.trace = s.trace ++ [Act.read s.master_fd 255 s1.nbytes])) ∧
    (∃ s1, read_stdin w s = some s1 ∧ s1.nbytes ≤ 255 ∧
      (s1.nbytes ≤ 0 →
        s1.buffer = s.buffer ∧
        s1.trace = s.trace ++ [Act.read STDIN_FILENO 255 s1.nbytes])) := by
  have hlen1 : s.buffer.length = 256 := hlen
  refine ⟨⟨loopEntry_length env, main_not_fault env evs⟩, ?_, ?_, ?_⟩
  · exact ⟨afterBody w s, loop_body_eq w s hlen1, afterBody_length w s hlen1,
      afterBody_trace w s, bodyActs_bounded _ w⟩
  · refine ⟨afterMaster w s, read_master_eq w s hlen1, retOf_le _, ?_⟩
    intro hn
    have hc : chunkOf w.masterRead = [] := chunkOf_nil_of_retOf_nonpos _ hn
    simp [afterMaster, bufferAfter, masterActs, hc]
  · refine ⟨afterStdin w s, read_stdin_eq w s hlen1, retOf_le _, ?_⟩
    intro hn
    have hc : chunkOf w.stdinRead = [] := chunkOf_nil_of_retOf_nonpos _ hn
    simp [afterStdin, bufferAfter, stdinActs, hc]

/-- Witness for C10: the wake-up `typingWake` on the buffer with which the loop is
entered. -/
theorem C10_buffer_bounds_witness :
    (loopEntry parentEnv).buffer.length = BUFFER_SIZE ∧
    (((loopEntry parentEnv).buffer.length = BUFFER_SIZE ∧
        ∀ st, main parentEnv typingEvents ≠ Outcome.fault st) ∧
      (∃ s1, loop_body typingWake (loopEntry parentEnv) = some s1 ∧
        s1.buffer.length = BUFFER_SIZE ∧
        s1.trace = (loopEntry parentEnv).trace ++
          bodyActs (loopEntry parentEnv).master_fd typingWake ∧
        ∀ a ∈ bodyActs (loopEntry parentEnv).master_fd typingWake, boundedAct a = true) ∧
      (∃ s1, read_master typingWake (loopEntry parentEnv) = some s1 ∧ s1.nbytes ≤ 255 ∧
        (s1.nbytes ≤ 0 →
          s1.buffer = (loopEntry parentEnv).buffer ∧
          s1.trace = (loopEntry parentEnv).trace ++
            [Act.read (loopEntry parentEnv).master_fd 255 s1.nbytes])) ∧
      (∃ s1, read_stdin typingWake (loopEntry parentEnv) = some s1 ∧ s1.nbytes ≤ 255 ∧
        (s1.nbytes ≤ 0 →
          s1.buffer = (loopEntry parentEnv).buffer ∧
          s1.trace = (loopEntry parentEnv).trace ++ [Act.read STDIN_FILENO 255 s1.nbytes]))) :=
  ⟨loopEntry_length parentEnv,
   C10_buffer_bounds parentEnv typingEvents typingWake (loopEntry parentEnv)
     (loopEntry_length parentEnv)⟩

end CustTerm
